import Mathlib

/-!
Verification of the ASEG-GDF format utilities
(`geophys_utils/netcdf_converter/aseg_gdf_utils.py`).

The Python module is shallowly embedded below.  Conventions used throughout:

* Python numeric values are modelled as exact rationals (`ℚ`); the module's
  arithmetic (`-`, `abs`, comparisons, `pow(10, -n)`) is exact over the values
  it manipulates, and `math.ceil(math.log10 x)` is modelled as the exact least
  `d` with `x ≤ 10 ^ d` (for the `x ≥ 1` arguments the module produces).
* Python exceptions are modelled by an error type `PyErr` carrying the kind of
  exception (the module's `try/except ValueError` needs the kind to be
  faithful) and the message.
* `numpy.ndarray.astype` (an external library call) is modelled by an explicit
  cast-function parameter `castFn : String → ℚ → ℚ` (dtype name, value) and the
  fill-value truncation of `fix_field_precision` (which goes through
  `str(float)` and a regular expression) by a parameter
  `truncFn : ℚ → ℕ → ℤ → Option ℚ`, where `none` models a formatting failure.
  All theorems below are proved for arbitrary such parameters.
-/
deriving instance DecidableEq for Except

attribute [local semireducible] Rat.mul Rat.add Rat.sub Rat.inv Rat.ofScientific

/-- Kinds of Python exception raised by the module.  `fix_field_precision`
catches exactly `ValueError` at family level, so the kind is load-bearing. -/
inductive PyErr where
  | valueError (msg : String)
  | keyError (msg : String)
  | assertionError (msg : String)
  | baseException (msg : String)
deriving DecidableEq, Repr

/-- A dynamically typed Python value as returned for `columns` by
`decode_aseg_gdf_format`: the *unconverted* matched string when the column
prefix is present (`match.group(1)`), the integer `1` otherwise. -/
inductive PyVal where
  | str (s : String)
  | int (n : ℕ)
deriving DecidableEq, Repr

/-- Result of `decode_aseg_gdf_format`. -/
structure DecodeResult where
  columns : PyVal
  aseg_dtype_code : Char
  integer_digits : ℕ
  fractional_digits : ℕ
deriving DecidableEq, Repr

/-- Python `int()` on a string of decimal digits. -/
def digitsToNat (s : String) : ℕ :=
  s.toList.foldl (fun a c => a * 10 + (c.toNat - 48)) 0

/-- Split a list at the first element not satisfying `p` (the behaviour of a
maximal greedy character-class run in the regular expression). -/
def splitWhile (p : Char → Bool) : List Char → List Char × List Char
  | [] => ([], [])
  | c :: cs =>
    if p c then
      let r := splitWhile p cs
      (c :: r.1, r.2)
    else ([], c :: cs)

/-- The backtracked match of `(\d+)*(\w)(\d+)\.*(\d+)*` used when no letter
with following digits is available after the leading digit run: the engine
gives digits back, and the last two digits of the run become groups 2 and 3;
dots and group 4 are then taken from `rest`.  No match when the run is shorter
than two digits. -/
def regexFallback (run rest : List Char) : Option (Option String × Char × String × Option String) :=
  match run.length with
  | 0 => none
  | 1 => none
  | k + 2 =>
    let g1 := run.take k
    let wf := splitWhile Char.isDigit (splitWhile (fun d => d = '.') rest).2
    some (if g1.isEmpty then none else some g1.asString,
      run.getD k ' ', (run.drop (k + 1)).asString,
      if wf.1.isEmpty then none else some wf.1.asString)

/-- The groups delivered by `re.match('(\d+)*(\w)(\d+)\.*(\d+)*', s)`.

Derived behaviour of the backtracking engine on this pattern (a prefix match,
not anchored at the end):

* Let `run` be the maximal leading digit run of `s` and `rest` what follows.
* If `rest` starts with a word character `c` that is a letter or `_` and at
  least one digit follows `c`, the first (fully greedy) attempt succeeds:
  group 1 is `run` (absent when empty), group 2 is `c`, group 3 the digit run
  after `c`, then a maximal run of dots is skipped and group 4 is the digit
  run after the dots (absent when empty).
* Otherwise the engine backtracks inside `(\d+)*` (see `regexFallback`).

Note `\w` also matches digits and `_`, and nothing anchors the end of the
string, so this accepts strings the documented grammar rejects. -/
def regexGroups (s : String) : Option (Option String × Char × String × Option String) :=
  let w := splitWhile Char.isDigit s.toList
  match w.2 with
  | c :: rest2 =>
    if c.isAlpha || c = '_' then
      let wi := splitWhile Char.isDigit rest2
      if wi.1.isEmpty then
        regexFallback w.1 w.2
      else
        let wf := splitWhile Char.isDigit (splitWhile (fun d => d = '.') wi.2).2
        some (if w.1.isEmpty then none else some w.1.asString, c, wi.1.asString,
          if wf.1.isEmpty then none else some wf.1.asString)
    else regexFallback w.1 w.2
  | [] => regexFallback w.1 []

/-- Embedding of `decode_aseg_gdf_format` (lines 43-73). -/
def decode_aseg_gdf_format (aseg_gdf_format : String) : Except PyErr DecodeResult :=
  if aseg_gdf_format = "" then
    .error (.baseException "No ASEG-GDF format string to decode")
  else
    match regexGroups aseg_gdf_format with
    | none => .error (.baseException ("Invalid ASEG-GDF format string " ++ aseg_gdf_format))
    | some (g1, g2, g3, g4) =>
      .ok { columns := match g1 with
              | some d => PyVal.str d
              | none => PyVal.int 1
          , aseg_dtype_code := g2.toUpper
          , integer_digits := digitsToNat g3
          , fractional_digits := match g4 with
              | some d => digitsToNat d
              | none => 0 }

/-- `SIG_FIGS` (lines 21-29): ordered table of approximate significant decimal
figures per dtype. -/
def SIG_FIGS : List (String × ℕ) :=
  [("int8", 2), ("int16", 4), ("int32", 10), ("int64", 19), ("float32", 7), ("float64", 20)]

/-- `DTYPE_REDUCTION_LISTS` (lines 31-33). -/
def DTYPE_REDUCTION_LISTS : List (List String) :=
  [["int64", "int32", "int16", "int8"], ["float64", "float32"]]

/-- `ASEG_DTYPE_CODE_MAPPING` (lines 35-41); note `int8` has no entry. -/
def ASEG_DTYPE_CODE_MAPPING : List (String × Char) :=
  [("int16", 'I'), ("int32", 'I'), ("int64", 'I'), ("float32", 'F'), ("float64", 'D'), ("str", 'A')]

/-- Python `dict` lookup over an association list. -/
def alookup {β : Type} (key : String) : List (String × β) → Option β
  | [] => none
  | (k, v) :: rest => if key = k then some v else alookup key rest

/-- Python `s.startswith(pre)`. -/
def pyStartsWith (s pre : String) : Bool :=
  pre.toList.isPrefixOf s.toList

/-- Embedding of `aseg_gdf_format2dtype` (lines 75-119).  The returned dtype is
the Python dtype name; the Python type `str` (returned in the `'A'` branch) is
rendered as the name `"str"`.  The final `if aseg_dtype_code == 'A': ... else:
raise` of the source is *not* chained to the preceding `if/elif`, so the search
results of the `'I'`/`'D'`/`'E'`/`'F'` branches are discarded and those codes
always end in the `raise`. -/
def aseg_gdf_format2dtype (s : String) : Except PyErr (String × PyVal × ℕ × ℕ) :=
  match decode_aseg_gdf_format s with
  | .error e => .error e
  | .ok r =>
    let step1 : Except PyErr (Option String) :=
      if r.aseg_dtype_code = 'I' then
        if r.fractional_digits ≠ 0 then
          .error (.assertionError "Integer format cannot be defined with fractional digits")
        else
          match SIG_FIGS.find? (fun p => pyStartsWith p.1 "int" && r.integer_digits ≤ p.2) with
          | some p => .ok (some p.1)
          | none => .error (.assertionError ("Invalid integer length of " ++ toString r.integer_digits))
      else if r.aseg_dtype_code = 'D' ∨ r.aseg_dtype_code = 'E' ∨ r.aseg_dtype_code = 'F' then
        match SIG_FIGS.find? (fun p =>
            pyStartsWith p.1 "float" && r.integer_digits + r.fractional_digits ≤ p.2) with
        | some p => .ok (some p.1)
        | none => .error (.assertionError ("Invalid floating point format of "
            ++ toString r.integer_digits ++ "." ++ toString r.fractional_digits))
      else .ok none
    match step1 with
    | .error e => .error e
    | .ok _dty =>
      if r.aseg_dtype_code = 'A' then
        if r.fractional_digits ≠ 0 then
          .error (.assertionError "String format cannot be defined with fractional digits")
        else .ok ("str", r.columns, r.integer_digits, r.fractional_digits)
      else
        .error (.baseException ("Unhandled ASEG-GDF dtype code "
            ++ r.aseg_dtype_code.toString))

/-- Fuelled kernel of `natCeilLog10`, written directly with `Nat.rec` so that
evaluation in the kernel only unfolds as deep as the division chain actually
goes (the equation compiler's `brecOn` would force every fuel step). -/
def nclAux (fuel : ℕ) : ℕ → ℕ :=
  @Nat.rec (fun _ => ℕ → ℕ) (fun _ => 0)
    (fun _ ih m => if m ≤ 1 then 0 else ih ((m + 9) / 10) + 1) fuel

/-- Least `d` with `m ≤ 10 ^ d`, i.e. `ceil(log10 m)` for `m ≥ 1`. -/
def natCeilLog10 (m : ℕ) : ℕ :=
  nclAux m m

/-- `math.ceil(math.log10 q)` for a rational `q ≥ 1` (exact model of the
module's float computation): the least `d : ℕ` with `q ≤ 10 ^ d`. -/
def ceilLog10Q (q : ℚ) : ℕ :=
  natCeilLog10 (Int.toNat ⌈q⌉)

/-- `d` is exactly `ceil(log10 x)`: `x` fits in `10 ^ d` and, unless `d = 0`,
does not fit in `10 ^ (d - 1)`. -/
def isCeilLog10 (x : ℚ) (d : ℕ) : Prop :=
  x ≤ 10 ^ d ∧ (d = 0 ∨ (10 : ℚ) ^ (d - 1) < x)

/-- A data array or netCDF array variable as consumed by
`variable2aseg_gdf_format` and `fix_field_precision`:

* `shape`: the numpy shape (list of dimension sizes);
* `dtype`: the result of `str(array_variable.dtype)`;
* `data`: the flat value list (for a masked array this is the underlying
  `.data` buffer, i.e. the fill value is present at masked positions);
* `maskedFill`: `some (mask, fill_value)` when the array is a
  `numpy.ma.core.MaskedArray` (its element-wise mask and `fill_value`
  attribute), `none` for a plain array;
* `asegAttr`: the `aseg_gdf_format` attribute when the netCDF variable
  carries one. -/
structure ArrayVar where
  shape : List ℕ
  dtype : String
  data : List ℚ
  maskedFill : Option (List Bool × ℚ)
  asegAttr : Option String
deriving DecidableEq, Repr

/-- The tuple returned by `variable2aseg_gdf_format`.  `fractional_digits` is
an `ℤ` because the module can produce a negative value (Python ints are not
clamped). -/
structure VarFormat where
  aseg_gdf_format : String
  dtype : String
  columns : ℕ
  integer_digits : ℕ
  fractional_digits : ℤ
  python_format : String
deriving DecidableEq, Repr

/-- `columns` from the array shape (lines 135-140). -/
def columnsOfShape : List ℕ → Except PyErr ℕ
  | [_] => .ok 1
  | [_, c] => .ok c
  | _ => .error (.baseException "Unable to handle arrays with dimensionality > 3")

/-- `np.nanmin(data)` over the model's exact values (no NaNs). -/
def minOf : List ℚ → ℚ
  | [] => 0
  | x :: xs => xs.foldl min x

/-- `np.nanmax(np.abs(data))` over the model's exact values. -/
def maxAbsOf : List ℚ → ℚ
  | [] => 0
  | x :: xs => xs.foldl (fun a y => max a |y|) |x|

/-- The Python format template `'{' + ':{:d}.{:d}f'.format(w, f) + '}'`. -/
def pyFloatFmt (w f : ℤ) : String :=
  "\x7b:" ++ toString w ++ "." ++ toString f ++ "f\x7d"

/-- Resolution of `fractional_digits` for the float branch (lines 162-172):
an explicit `decimal_places` wins and is capped at `sig_figs -
integer_digits`; else a declared `aseg_gdf_format` attribute is decoded and
its fractional digits capped at `sig_figs - integer_digits + 1`; else the
fallback `sig_figs - integer_digits + 1`. -/
def resolveFrac (decimal_places : Option ℤ) (attr : Option String)
    (sig_figs : ℤ) (integer_digits : ℕ) : Except PyErr ℤ :=
  match decimal_places with
  | some dp => .ok (min dp (sig_figs - integer_digits))
  | none =>
    match attr with
    | none => .ok (sig_figs - integer_digits + 1)
    | some a =>
      match decode_aseg_gdf_format a with
      | .error e => .error e
      | .ok r => .ok (min (r.fractional_digits : ℤ) (sig_figs - integer_digits + 1))

/-- Embedding of `variable2aseg_gdf_format` (lines 122-192).  Notes kept from
the source:

* `SIG_FIGS[dtype]` is looked up (line 150) *before* the dtype code mapping
  (line 154) and before any branching, so a dtype absent from `SIG_FIGS`
  (e.g. a text dtype) raises `KeyError` and the `'A'` branch below is
  unreachable.
* `np.nanmin` on an empty array raises `ValueError` (line 151).
* In the `'A'` branch (lines 176-184) the source never assigns
  `aseg_gdf_format`, so reaching line 189/192 would raise
  `UnboundLocalError`; the branch is embedded as that error. -/
def variable2aseg_gdf_format (v : ArrayVar) (decimal_places : Option ℤ) :
    Except PyErr VarFormat :=
  match columnsOfShape v.shape with
  | .error e => .error e
  | .ok columns =>
    match alookup v.dtype SIG_FIGS with
    | none => .error (.keyError v.dtype)
    | some sig0 =>
      if v.data = [] then
        .error (.valueError "zero-size array to reduction operation fmin which has no identity")
      else
        let sig_figs : ℤ := (sig0 : ℤ) + 1
        let sign_width : ℤ := if minOf v.data < 0 then 1 else 0
        let integer_digits : ℕ := ceilLog10Q (maxAbsOf v.data + 1)
        match alookup v.dtype ASEG_DTYPE_CODE_MAPPING with
        | none => .error (.assertionError ("Unhandled dtype " ++ v.dtype))
        | some code =>
          if code = 'I' then
            .ok { aseg_gdf_format :=
                    (if 1 < columns then toString columns else "")
                      ++ "I" ++ toString integer_digits
                , dtype := v.dtype
                , columns := columns
                , integer_digits := integer_digits
                , fractional_digits := 0
                , python_format := pyFloatFmt (sign_width + integer_digits) 0 }
          else if code = 'F' ∨ code = 'D' then
            match resolveFrac decimal_places v.asegAttr sig_figs integer_digits with
            | .error e => .error e
            | .ok fractional_digits =>
              .ok { aseg_gdf_format :=
                      (if 1 < columns then toString columns else "")
                        ++ code.toString ++ toString integer_digits
                        ++ "." ++ toString fractional_digits
                  , dtype := v.dtype
                  , columns := columns
                  , integer_digits := integer_digits
                  , fractional_digits := fractional_digits
                  , python_format :=
                      pyFloatFmt (sign_width + integer_digits + fractional_digits + 1)
                        fractional_digits }
          else if code = 'A' then
            match v.asegAttr with
            | some a =>
              match decode_aseg_gdf_format a with
              | .error e => .error e
              | .ok _ => .error (.baseException
                  "UnboundLocalError: local variable aseg_gdf_format referenced before assignment")
            | none => .error (.baseException
                "UnboundLocalError: local variable aseg_gdf_format referenced before assignment")
          else
            .error (.baseException ("Unhandled ASEG-GDF dtype code " ++ code.toString))

/-- The tuple returned by `fix_field_precision` when a narrower dtype is
accepted: the `variable2aseg_gdf_format` tuple of the narrowed array plus the
(possibly modified) fill value.  The narrowed array itself is not part of the
Python return value. -/
structure FixOut where
  fmt : VarFormat
  fill_value : Option ℚ
deriving DecidableEq, Repr

/-- The fill-value truncation block (lines 265-273): `truncFn` models the
`str(fill_value)`-and-regex truncation to `integer_digits.fractional_digits`
(with `none` for a formatting failure); both a failure and an ambiguous
truncation (the `assert` on line 270) are swallowed by the bare `except`,
keeping the previous fill value.  `data` is the *original* array and `f` the
fill value defining the no-data mask (line 230). -/
def truncStep (truncFn : ℚ → ℕ → ℤ → Option ℚ) (data : List ℚ) (f fill1 : ℚ)
    (fmt : VarFormat) : ℚ :=
  match truncFn fill1 fmt.integer_digits fmt.fractional_digits with
  | some t =>
    if (data.filter (fun y => decide (¬ y = f))).any (fun y => decide (y = t)) then fill1
    else t
  | none => fill1

/-- The inner candidate loop of `fix_field_precision` (lines 233-275), over
`dtype_reduction_list[:current_dtype_index:-1]` (strictly smaller dtypes,
smallest first).  For each candidate the full array is cast, the elementwise
difference against the original is checked against `10 ** -fractional_digits`,
and on success `variable2aseg_gdf_format` is re-run on the narrowed array
(with `decimal_places = fractional_digits`) and the fill value reconciled:

* `data.find? (y = f)` is `data_array[no_data_mask][0]` with
  `no_data_mask = (data_array == fill_value)` (lines 229-230, 255-256) — note
  it reads the *original* `data_array`, not the narrowed array;
* the ambiguity check (line 259) also compares against the original
  `data_array[~no_data_mask]`, and on collision `continue`s to the next
  candidate. -/
def tryCandidates (castFn : String → ℚ → ℚ) (truncFn : ℚ → ℕ → ℤ → Option ℚ)
    (shape : List ℕ) (data : List ℚ) (fd : ℤ) (fill : Option ℚ) :
    List String → Except PyErr (Option FixOut)
  | [] => .ok none
  | smaller :: rest =>
    let smaller_array := data.map (castFn smaller)
    let diffs := List.zipWith (fun a b => a - b) data smaller_array
    if (diffs.filter (fun d => decide ((10 : ℚ) ^ (-fd) ≤ |d|))).length ≠ 0 then
      tryCandidates castFn truncFn shape data fd fill rest
    else
      match variable2aseg_gdf_format ⟨shape, smaller, smaller_array, none, none⟩ (some fd) with
      | .error e => .error e
      | .ok fmt =>
        match fill with
        | none => .ok (some ⟨fmt, none⟩)
        | some f =>
          match data.find? (fun y => decide (y = f)) with
          | some rv =>
            if (data.filter (fun y => decide (¬ y = f))).any (fun y => decide (y = rv)) then
              tryCandidates castFn truncFn shape data fd fill rest
            else
              .ok (some ⟨fmt, some (truncStep truncFn data f rv fmt)⟩)
          | none => .ok (some ⟨fmt, some (truncStep truncFn data f f fmt)⟩)

/-- The fill value in effect inside a family body: a masked array's own
`fill_value` overrides any caller-supplied one (line 226). -/
def effectiveFill (v : ArrayVar) (fill0 : Option ℚ) : Option ℚ :=
  match v.maskedFill with
  | some mf => some mf.2
  | none => fill0

/-- One iteration of the family loop of `fix_field_precision` (lines
218-233): `list.index` raises `ValueError` when `current_dtype` is not in the
family; otherwise the candidate dtypes strictly smaller than `current_dtype`
are tried smallest-first. -/
def familyBody (castFn : String → ℚ → ℚ) (truncFn : ℚ → ℕ → ℤ → Option ℚ)
    (v : ArrayVar) (current : String) (fd : ℤ) (fill0 : Option ℚ)
    (lst : List String) : Except PyErr (Option FixOut) :=
  match lst.findIdx? (fun d => decide (d = current)) with
  | none => .error (.valueError ("'" ++ current ++ "' is not in list"))
  | some idx =>
    tryCandidates castFn truncFn v.shape v.data fd (effectiveFill v fill0)
      ((lst.drop (idx + 1)).reverse)

/-- The `for dtype_reduction_list in DTYPE_REDUCTION_LISTS` loop with its
`except ValueError: continue` (lines 218, 278-279): a `ValueError` anywhere in
the body moves on to the next family; any other exception propagates; falling
through the candidate loop also moves on.  Falling off the end of the function
returns Python `None` (`.ok none`). -/
def runFamilies (castFn : String → ℚ → ℚ) (truncFn : ℚ → ℕ → ℤ → Option ℚ)
    (v : ArrayVar) (current : String) (fd : ℤ) (fill0 : Option ℚ) :
    List (List String) → Except PyErr (Option FixOut)
  | [] => .ok none
  | lst :: rest =>
    match familyBody castFn truncFn v current fd fill0 lst with
    | .error (.valueError _) => runFamilies castFn truncFn v current fd fill0 rest
    | .error e => .error e
    | .ok none => runFamilies castFn truncFn v current fd fill0 rest
    | .ok (some r) => .ok (some r)

/-- Embedding of `fix_field_precision` (lines 195-280). -/
def fix_field_precision (castFn : String → ℚ → ℚ) (truncFn : ℚ → ℕ → ℤ → Option ℚ)
    (array_variable : ArrayVar) (current_dtype : String) (fractional_digits : ℤ)
    (fill_value : Option ℚ) : Except PyErr (Option FixOut) :=
  runFamilies castFn truncFn array_variable current_dtype fractional_digits fill_value
    DTYPE_REDUCTION_LISTS

/-- The identity cast: exact for values representable in the target dtype. -/
def castId : String → ℚ → ℚ := fun _ q => q

/-- A truncation model that always fails to format. -/
def truncNone : ℚ → ℕ → ℤ → Option ℚ := fun _ _ _ => none

/-- A cast model for `"float32"` that rounds to the nearest multiple of
`2 ^ (-22)` — exactly the spacing of `float32` values in `[2, 4)`, so on the
inputs used below this computes the true `numpy` `astype('float32')`
result. -/
def castFloat32Grid : String → ℚ → ℚ :=
  fun _ q => ((⌊q * 2 ^ 22 + 1 / 2⌋ : ℤ) : ℚ) / 2 ^ 22

/-- Projection helpers for stating concrete facts about computed results. -/
def okDecode : Except PyErr DecodeResult → Option DecodeResult
  | .ok r => some r
  | .error _ => none

def okIntegerDigits : Except PyErr VarFormat → Option ℕ
  | .ok r => some r.integer_digits
  | .error _ => none

def okFractionalDigits : Except PyErr VarFormat → Option ℤ
  | .ok r => some r.fractional_digits
  | .error _ => none

def fixDtype : Except PyErr (Option FixOut) → Option String
  | .ok (some r) => some r.fmt.dtype
  | _ => none

def fixFill : Except PyErr (Option FixOut) → Option ℚ
  | .ok (some r) => (r.fill_value : Option ℚ)
  | _ => none

/-- Whether a call raised (any Python exception). -/
def isErr {α : Type} : Except PyErr α → Bool
  | .error _ => true
  | .ok _ => false

/-- The documented specifier grammar, following the specification's words:
optional leading decimal digits (column count), one *letter* (type code), a
mandatory run of integer digits, and an optional `.` followed by digits — the
whole string, nothing else. -/
def specGrammarParse (s : String) : Option (Option String × Char × String × Option String) :=
  let w := splitWhile Char.isDigit s.toList
  match w.2 with
  | [] => none
  | c :: rest2 =>
    if c.isAlpha then
      let wi := splitWhile Char.isDigit rest2
      if wi.1.isEmpty then none
      else
        match wi.2 with
        | [] => some (if w.1.isEmpty then none else some w.1.asString, c, wi.1.asString, none)
        | '.' :: rest4 =>
          let wf := splitWhile Char.isDigit rest4
          if wf.1.isEmpty then none
          else if wf.2.isEmpty then
            some (if w.1.isEmpty then none else some w.1.asString, c, wi.1.asString,
              some wf.1.asString)
          else none
        | _ => none
    else none

/-- The specification's precedence rule for float `fractional_digits`
(§4.3 step 5), stated over the already-parsed fractional digits of any
declared specifier. -/
def fracPrecedenceSpec (decimal_places : Option ℤ) (declared : Option ℕ)
    (sig_figs : ℤ) (integer_digits : ℕ) : ℤ :=
  match decimal_places with
  | some dp => min dp (sig_figs - integer_digits)
  | none =>
    match declared with
    | some f => min (f : ℤ) (sig_figs - integer_digits + 1)
    | none => sig_figs - integer_digits + 1

/-- The parsed fractional digits of a declared specifier, when the
declaration is present and parses. -/
def declaredFracOf : Option String → Option ℕ
  | none => none
  | some a =>
    match decode_aseg_gdf_format a with
    | .ok r => some r.fractional_digits
    | .error _ => none

def wVar2 : ArrayVar := ⟨[2], "float64", [3/2, 5/2], none, none⟩

def wRes2 : FixOut := ⟨⟨"F1.2", "float32", 1, 1, 2, "\x7b:4.2f\x7d"⟩, none⟩

def wVar3 : ArrayVar := ⟨[2], "float64", [2 + (2 : ℚ) ^ (-(30 : ℤ)), 2], none, none⟩

def wVar4 : ArrayVar := ⟨[1], "float64", [3/2], none, none⟩

def wRes4 : VarFormat := ⟨"D1.21", "float64", 1, 1, 21, "\x7b:23.21f\x7d"⟩

def wVar6c : ArrayVar := ⟨[1], "int16", [0], none, none⟩

def wVar6 : ArrayVar := ⟨[1], "int16", [5], none, none⟩

def wVar7c : ArrayVar := ⟨[1], "float32", [(10 : ℚ) ^ (10 : ℕ)], none, none⟩

def wVar7 : ArrayVar := ⟨[1], "int32", [7], none, none⟩

def wRes7 : VarFormat := ⟨"I1", "int32", 1, 1, 0, "\x7b:1.0f\x7d"⟩

def wVar8 : ArrayVar := ⟨[2], "int64", [1, 2], none, none⟩

theorem nclAux_zero (m : ℕ) : nclAux 0 m = 0 := rfl

theorem nclAux_succ (f m : ℕ) :
    nclAux (f + 1) m = if m ≤ 1 then 0 else nclAux f ((m + 9) / 10) + 1 := rfl

theorem nclAux_spec : ∀ f m : ℕ, m ≤ f →
    (m ≤ 10 ^ nclAux f m ∧ (nclAux f m = 0 ∨ 10 ^ (nclAux f m - 1) < m)) := by
  intro f
  induction f with
  | zero =>
    intro m hm
    have hm0 : m = 0 := Nat.le_zero.mp hm
    subst hm0
    exact ⟨by norm_num [nclAux_zero], Or.inl rfl⟩
  | succ f ih =>
    intro m hm
    rw [nclAux_succ]
    by_cases h1 : m ≤ 1
    · rw [if_pos h1]
      exact ⟨by simpa using h1, Or.inl rfl⟩
    · rw [if_neg h1]
      obtain ⟨hup, hlow⟩ := ih ((m + 9) / 10) (by omega)
      set d := nclAux f ((m + 9) / 10) with hd
      constructor
      · calc m ≤ 10 * ((m + 9) / 10) := by omega
          _ ≤ 10 * 10 ^ d := Nat.mul_le_mul_left 10 hup
          _ = 10 ^ (d + 1) := by rw [pow_succ]; ring
      · right
        simp only [Nat.add_sub_cancel]
        rcases Nat.eq_zero_or_pos d with hd0 | hdpos
        · rw [hd0]
          simpa using by omega
        · rcases hlow with h0 | hlt
          · omega
          · have hstep : 10 * 10 ^ (d - 1) < m := by omega
            calc (10 : ℕ) ^ d = 10 * 10 ^ (d - 1) := by
                  rw [← pow_succ']
                  congr 1
                  omega
              _ < m := hstep

theorem natCeilLog10_spec (m : ℕ) :
    m ≤ 10 ^ natCeilLog10 m ∧ (natCeilLog10 m = 0 ∨ 10 ^ (natCeilLog10 m - 1) < m) :=
  nclAux_spec m m le_rfl

/-- For `q ≥ 1` the computable `ceilLog10Q` meets the mathematical
specification `isCeilLog10`. -/
theorem ceilLog10Q_spec (q : ℚ) (hq : 1 ≤ q) : isCeilLog10 q (ceilLog10Q q) := by
  have hle : q ≤ (⌈q⌉ : ℚ) := Int.le_ceil q
  have hpos : (1 : ℤ) ≤ ⌈q⌉ := Int.one_le_ceil_iff.mpr (by linarith)
  have hmq : ((Int.toNat ⌈q⌉ : ℤ)) = ⌈q⌉ := Int.toNat_of_nonneg (by omega)
  obtain ⟨hup, hlow⟩ := natCeilLog10_spec (Int.toNat ⌈q⌉)
  unfold ceilLog10Q
  constructor
  · calc q ≤ (⌈q⌉ : ℚ) := hle
      _ = ((Int.toNat ⌈q⌉ : ℤ) : ℚ) := by rw [hmq]
      _ ≤ (((10 : ℕ) ^ natCeilLog10 (Int.toNat ⌈q⌉) : ℕ) : ℚ) := by exact_mod_cast hup
      _ = 10 ^ natCeilLog10 (Int.toNat ⌈q⌉) := by push_cast; ring
  · rcases hlow with h0 | hlt
    · exact Or.inl h0
    · right
      by_contra hcon
      push_neg at hcon
      have hcz : ⌈q⌉ ≤ (10 : ℤ) ^ (natCeilLog10 (Int.toNat ⌈q⌉) - 1) := by
        apply Int.ceil_le.mpr
        calc q ≤ (10 : ℚ) ^ (natCeilLog10 (Int.toNat ⌈q⌉) - 1) := hcon
          _ = (((10 : ℤ) ^ (natCeilLog10 (Int.toNat ⌈q⌉) - 1) : ℤ) : ℚ) := by push_cast; ring
      have hnn : Int.toNat ⌈q⌉ ≤ 10 ^ (natCeilLog10 (Int.toNat ⌈q⌉) - 1) := by
        have hc2 : ((Int.toNat ⌈q⌉ : ℤ))
            ≤ ((10 ^ (natCeilLog10 (Int.toNat ⌈q⌉) - 1) : ℕ) : ℤ) := by
          rw [hmq]
          exact_mod_cast hcz
        exact_mod_cast hc2
      omega

example : ceilLog10Q 1 = 0 := by decide
example : ceilLog10Q (5 / 2) = 1 := by decide
example : ceilLog10Q ((10 : ℚ) ^ (10 : ℕ) + 1) = 11 := by decide

example : variable2aseg_gdf_format ⟨[1], "str", [], none, none⟩ none
    = .error (.keyError "str") := by decide

example : variable2aseg_gdf_format ⟨[2], "float32", [3/2, 5/2], none, none⟩ (some 2)
    = .ok ⟨"F1.2", "float32", 1, 1, 2, "\x7b:4.2f\x7d"⟩ := by decide

example : variable2aseg_gdf_format ⟨[1], "float32", [(10:ℚ)^(10:ℕ)], none, none⟩ none
    = .ok ⟨"F11.-2", "float32", 1, 11, -2, "\x7b:10.-2f\x7d"⟩ := by decide

example : variable2aseg_gdf_format ⟨[1], "int16", [0], none, none⟩ none
    = .ok ⟨"I0", "int16", 1, 0, 0, "\x7b:0.0f\x7d"⟩ := by decide

example : fix_field_precision castId truncNone ⟨[2], "int64", [1, 2], none, none⟩
    "int64" 0 none = .error (.assertionError "Unhandled dtype int8") := by decide

example : fix_field_precision castId truncNone ⟨[2], "float64", [3/2, 5/2], none, none⟩
    "float64" 2 none
    = .ok (some ⟨⟨"F1.2", "float32", 1, 1, 2, "\x7b:4.2f\x7d"⟩, none⟩) := by decide

example : fix_field_precision castId truncNone ⟨[2], "float64", [3/2, 5/2], none, none⟩
    "int8" 2 none = .ok none := by decide

example : castFloat32Grid "float32" (2 + (2 : ℚ) ^ (-(30 : ℤ))) = 2 := by decide

example : castFloat32Grid "float32" (2 + (2 : ℚ) ^ (-(22 : ℤ))) = 2 + (2 : ℚ) ^ (-(22 : ℤ)) := by
  decide

example : fix_field_precision castFloat32Grid truncNone
    ⟨[2], "float64", [2 + (2 : ℚ) ^ (-(30 : ℤ)), 2], none, none⟩ "float64" 5 (some 2)
    = .ok (some ⟨⟨"F1.5", "float32", 1, 1, 5, "\x7b:7.5f\x7d"⟩, some 2⟩) := by decide

example : specGrammarParse "3f10.4" = some (some "3", 'f', "10", some "4") := by decide
example : specGrammarParse "I5X" = none := by decide
example : specGrammarParse "35" = none := by decide

/-- Inversion for a successful `variable2aseg_gdf_format` call: both table
lookups succeeded, the array is non-empty, the returned dtype is the input
dtype, the returned integer digits are `ceil(log10(max_abs + 1))`, and the
fractional digits come from the integer branch (zero) or the float branch
(the `resolveFrac` precedence). -/
theorem variable2aseg_ok_spec (v : ArrayVar) (dp : Option ℤ) (r : VarFormat)
    (h : variable2aseg_gdf_format v dp = .ok r) :
    ∃ sig0 code, alookup v.dtype SIG_FIGS = some sig0 ∧
      alookup v.dtype ASEG_DTYPE_CODE_MAPPING = some code ∧
      v.data ≠ [] ∧ r.dtype = v.dtype ∧
      r.integer_digits = ceilLog10Q (maxAbsOf v.data + 1) ∧
      ((code = 'I' ∧ r.fractional_digits = 0) ∨
       ((code = 'F' ∨ code = 'D') ∧
         resolveFrac dp v.asegAttr ((sig0 : ℤ) + 1) (ceilLog10Q (maxAbsOf v.data + 1))
           = .ok r.fractional_digits)) := by
  rw [variable2aseg_gdf_format] at h
  split at h
  · exact Except.noConfusion h
  rename_i columns hcols
  split at h
  · exact Except.noConfusion h
  rename_i sig0 hsig
  split at h
  · exact Except.noConfusion h
  rename_i hne
  dsimp only at h
  split at h
  · exact Except.noConfusion h
  rename_i code hcode
  split at h
  · -- integer branch
    rename_i hcI
    refine ⟨sig0, code, hsig, hcode, hne, ?_, ?_, Or.inl ⟨hcI, ?_⟩⟩
    · injection h with h
      subst h
      rfl
    · injection h with h
      subst h
      rfl
    · injection h with h
      subst h
      rfl
  rename_i hcI
  split at h
  · -- float branch
    rename_i hcF
    split at h
    · exact Except.noConfusion h
    rename_i fr hres
    refine ⟨sig0, code, hsig, hcode, hne, ?_, ?_, Or.inr ⟨hcF, ?_⟩⟩
    · injection h with h
      subst h
      rfl
    · injection h with h
      subst h
      rfl
    · injection h with h
      subst h
      exact hres
  rename_i hcF
  split at h
  · -- string branch: every path raises
    rename_i hcA
    split at h
    · split at h
      · exact Except.noConfusion h
      · exact Except.noConfusion h
    · exact Except.noConfusion h
  · exact Except.noConfusion h

/-- If the acceptance check of `fix_field_precision` found no element whose
cast changes it by `10 ^ (-fd)` or more, then every element is within strictly
less than `10 ^ (-fd)` of its cast. -/
theorem accept_bound (g : ℚ → ℚ) (fd : ℤ) : ∀ data : List ℚ,
    ((List.zipWith (fun a b => a - b) data (data.map g)).filter
      (fun d => decide ((10 : ℚ) ^ (-fd) ≤ |d|))).length = 0 →
    ∀ x ∈ data, |x - g x| < (10 : ℚ) ^ (-fd) := by
  intro data
  induction data with
  | nil =>
    intro _ x hx
    exact absurd hx (List.not_mem_nil x)
  | cons a as ih =>
    intro hlen x hx
    rw [List.map_cons, List.zipWith_cons_cons, List.filter_cons] at hlen
    by_cases hd : (10 : ℚ) ^ (-fd) ≤ |a - g a|
    · rw [decide_eq_true hd, if_pos rfl] at hlen
      exact absurd hlen (by simp)
    · rw [decide_eq_false hd, if_neg Bool.false_ne_true] at hlen
      rcases List.mem_cons.mp hx with rfl | hxs
      · exact not_le.mp hd
      · exact ih hlen x hxs

/-- A successful `variable2aseg_gdf_format` reports the dtype it was given. -/
theorem variable2aseg_ok_dtype (v : ArrayVar) (dp : Option ℤ) (r : VarFormat)
    (h : variable2aseg_gdf_format v dp = .ok r) : r.dtype = v.dtype := by
  obtain ⟨_, _, _, _, _, hd, _, _⟩ := variable2aseg_ok_spec v dp r h
  exact hd

/-- Whenever the candidate loop returns a result, every element of the
original array is within `10 ^ (-fd)` of its cast to the accepted dtype. -/
theorem tryCandidates_ok_bound (castFn : String → ℚ → ℚ)
    (truncFn : ℚ → ℕ → ℤ → Option ℚ) (shape : List ℕ) (data : List ℚ)
    (fd : ℤ) (fill : Option ℚ) : ∀ (cands : List String) (r : FixOut),
    tryCandidates castFn truncFn shape data fd fill cands = .ok (some r) →
    ∀ x ∈ data, |x - castFn r.fmt.dtype x| < (10 : ℚ) ^ (-fd) := by
  intro cands
  induction cands with
  | nil =>
    intro r h
    exact absurd h (by simp [tryCandidates])
  | cons smaller rest ih =>
    intro r h x hx
    rw [tryCandidates] at h
    split at h
    · exact ih r h x hx
    rename_i hacc
    split at h
    · exact Except.noConfusion h
    rename_i fmt hfmt
    have hdty : fmt.dtype = smaller := variable2aseg_ok_dtype _ _ _ hfmt
    have hbound := accept_bound (castFn smaller) fd data (by omega) x hx
    split at h
    · simp only [Except.ok.injEq, Option.some.injEq] at h
      subst h
      rw [hdty]
      exact hbound
    rename_i f
    split at h
    · rename_i rv hfind
      split at h
      · exact ih r h x hx
      · simp only [Except.ok.injEq, Option.some.injEq] at h
        subst h
        rw [hdty]
        exact hbound
    · simp only [Except.ok.injEq, Option.some.injEq] at h
      subst h
      rw [hdty]
      exact hbound

/-- Transport of `tryCandidates_ok_bound` through the family loop. -/
theorem runFamilies_ok_bound (castFn : String → ℚ → ℚ)
    (truncFn : ℚ → ℕ → ℤ → Option ℚ) (v : ArrayVar) (current : String)
    (fd : ℤ) (fill0 : Option ℚ) : ∀ (fams : List (List String)) (r : FixOut),
    runFamilies castFn truncFn v current fd fill0 fams = .ok (some r) →
    ∀ x ∈ v.data, |x - castFn r.fmt.dtype x| < (10 : ℚ) ^ (-fd) := by
  intro fams
  induction fams with
  | nil =>
    intro r h
    exact absurd h (by simp [runFamilies])
  | cons lst rest ih =>
    intro r h x hx
    rw [runFamilies] at h
    split at h
    · exact ih r h x hx
    · exact Except.noConfusion h
    · exact ih r h x hx
    · rename_i r' hfb
      simp only [Except.ok.injEq, Option.some.injEq] at h
      subst h
      rw [familyBody] at hfb
      split at hfb
      · exact Except.noConfusion hfb
      · exact tryCandidates_ok_bound castFn truncFn v.shape v.data fd
          (effectiveFill v fill0) _ r' hfb x hx

theorem splitWhile_ne_nil_head (p : Char → Bool) :
    ∀ l : List Char, (splitWhile p l).1 ≠ [] → ∃ c cs, l = c :: cs ∧ p c = true := by
  intro l hne
  cases l with
  | nil => exact absurd rfl hne
  | cons c cs =>
    by_cases hc : p c = true
    · exact ⟨c, cs, rfl, hc⟩
    · rw [splitWhile, if_neg (by simp [hc])] at hne
      exact absurd rfl hne

theorem digit_not_dot {c : Char} (h : c.isDigit = true) : (decide (c = '.')) = false := by
  by_cases hc : c = '.'
  · subst hc
    exact absurd h (by decide)
  · exact decide_eq_false hc

theorem splitWhile_dot_digit_head (l : List Char) (c : Char) (cs : List Char)
    (hl : l = c :: cs) (hc : c.isDigit = true) :
    splitWhile (fun d => decide (d = '.')) l = ([], l) := by
  subst hl
  rw [splitWhile, if_neg (by simp [digit_not_dot hc])]

/-- Every string of the documented grammar is matched by the source's regular
expression with the same groups. -/
theorem grammar_implies_regex (s : String)
    (g : Option String × Char × String × Option String)
    (hg : specGrammarParse s = some g) : regexGroups s = some g := by
  rw [specGrammarParse] at hg
  rw [regexGroups]
  cases hw : (splitWhile Char.isDigit s.toList).2 with
  | nil =>
    rw [hw] at hg
    dsimp only at hg
    exact Option.noConfusion hg
  | cons c rest2 =>
    rw [hw] at hg
    dsimp only at hg ⊢
    by_cases hAlpha : c.isAlpha = true
    · rw [if_pos hAlpha] at hg
      rw [if_pos (by simp [hAlpha])]
      by_cases hint : (splitWhile Char.isDigit rest2).1.isEmpty = true
      · rw [if_pos hint] at hg
        exact Option.noConfusion hg
      · rw [if_neg hint] at hg
        rw [if_neg hint]
        split at hg
        · -- wi.2 = []
          rename_i hwi
          rw [hwi]
          simpa [splitWhile] using hg
        · -- wi.2 = '.' :: rest4
          rename_i rest4 hwi
          rw [hwi]
          split at hg
          · exact Option.noConfusion hg
          rename_i hfne
          split at hg
          · rename_i hfin
            obtain ⟨d, ds, hr4, hd⟩ := splitWhile_ne_nil_head Char.isDigit rest4
              (fun hnil => hfne (by rw [hnil]; rfl))
            have hsplit4 : splitWhile (fun x => decide (x = '.')) rest4 = ([], rest4) :=
              splitWhile_dot_digit_head rest4 d ds hr4 hd
            have hdots : (splitWhile (fun x => decide (x = '.')) ('.' :: rest4)).2 = rest4 := by
              rw [splitWhile]
              simp [hsplit4]
            rw [hdots]
            rw [if_neg hfne]
            exact hg
          · exact Option.noConfusion hg
        · -- any other character after the integer digits
          exact Option.noConfusion hg
    · rw [if_neg hAlpha] at hg
      exact Option.noConfusion hg

/-- `decode_aseg_gdf_format` raises exactly for the empty string and for
strings the regular expression does not match. -/
theorem decode_err_iff (s : String) :
    isErr (decode_aseg_gdf_format s) = true ↔ (s = "" ∨ regexGroups s = none) := by
  rw [decode_aseg_gdf_format]
  by_cases hs : s = ""
  · simp [hs, isErr]
  · rw [if_neg hs]
    cases hr : regexGroups s with
    | none => simp [isErr, hs]
    | some g =>
      obtain ⟨g1, g2, g3, g4⟩ := g
      simp [isErr, hs]

/-- `resolveFrac` computes the specification's precedence formula (over the
pre-parsed fractional digits of any declared attribute). -/
theorem resolveFrac_eq_spec (dp : Option ℤ) (attr : Option String)
    (sig_figs : ℤ) (integer_digits : ℕ) (fr : ℤ)
    (h : resolveFrac dp attr sig_figs integer_digits = .ok fr) :
    fr = fracPrecedenceSpec dp (declaredFracOf attr) sig_figs integer_digits := by
  cases dp with
  | some d =>
    rw [resolveFrac] at h
    simp only [Except.ok.injEq] at h
    rw [← h]
    rfl
  | none =>
    cases attr with
    | none =>
      rw [resolveFrac] at h
      simp only [Except.ok.injEq] at h
      rw [← h]
      rfl
    | some a =>
      rw [resolveFrac] at h
      cases hd : decode_aseg_gdf_format a with
      | error e =>
        rw [hd] at h
        exact Except.noConfusion h
      | ok dr =>
        rw [hd] at h
        simp only [Except.ok.injEq] at h
        rw [← h]
        simp [fracPrecedenceSpec, declaredFracOf, hd]

/-- A successful decode gives back the columns group unconverted: the matched
digit string as a Python `str` when the prefix is present, the Python `int` 1
otherwise. -/
theorem decode_columns_of_groups (s : String) (g1 : Option String) (g2 : Char)
    (g3 : String) (g4 : Option String) (r : DecodeResult)
    (hm : regexGroups s = some (g1, g2, g3, g4))
    (h : decode_aseg_gdf_format s = .ok r) :
    r.columns = (match g1 with | some d => PyVal.str d | none => PyVal.int 1) := by
  rw [decode_aseg_gdf_format] at h
  split at h
  · exact Except.noConfusion h
  · rw [hm] at h
    simp only [Except.ok.injEq] at h
    rw [← h]
    cases g1 with
    | none => rfl
    | some d => rfl

example : decode_aseg_gdf_format "3F10.4"
    = .ok ⟨PyVal.str "3", 'F', 10, 4⟩ := by decide

example : decode_aseg_gdf_format "I5" = .ok ⟨PyVal.int 1, 'I', 5, 0⟩ := by decide

example : decode_aseg_gdf_format "35" = .ok ⟨PyVal.int 1, '3', 5, 0⟩ := by decide

example : decode_aseg_gdf_format "12.5" = .ok ⟨PyVal.int 1, '1', 2, 5⟩ := by decide

example : decode_aseg_gdf_format "1.5" = .error (.baseException "Invalid ASEG-GDF format string 1.5") := by decide

example : aseg_gdf_format2dtype "I5"
    = .error (.baseException "Unhandled ASEG-GDF dtype code I") := by decide

theorem foldl_maxAbs_nonneg : ∀ (xs : List ℚ) (a : ℚ), 0 ≤ a →
    0 ≤ xs.foldl (fun b y => max b |y|) a := by
  intro xs
  induction xs with
  | nil =>
    intro a ha
    exact ha
  | cons x xs ih =>
    intro a ha
    rw [List.foldl_cons]
    exact ih _ (le_trans ha (le_max_left a |x|))

theorem maxAbsOf_nonneg : ∀ l : List ℚ, 0 ≤ maxAbsOf l
  | [] => le_refl 0
  | x :: xs => foldl_maxAbs_nonneg xs |x| (abs_nonneg x)

/-- C1: the specifier `I5` does not resolve to `int32`: `aseg_gdf_format2dtype`
raises `Unhandled ASEG-GDF dtype code I` for it (and likewise for every
`I`/`F`/`D`/`E` specifier), because the final `if aseg_dtype_code == 'A': ...
else: raise` is not chained as an `elif` to the branch that performed the
width search, discarding its result. -/
theorem claim_C1_format2dtype_I5_raises :
    aseg_gdf_format2dtype "I5"
      = .error (.baseException "Unhandled ASEG-GDF dtype code I") := by decide

/-- C2: whenever `fix_field_precision` returns a replacement, every element
outside the no-data mask (the mask is `value == effective fill`, so `x` is
unmasked exactly when the effective fill is not `some x`) differs from its
cast to the returned narrower dtype by strictly less than
`10 ^ (-fractional_digits)`.  The acceptance check covers *all* elements, so
the masked-scoped claim holds a fortiori, for every cast function and every
truncation behaviour. -/
theorem claim_C2_reduction_safe (castFn : String → ℚ → ℚ)
    (truncFn : ℚ → ℕ → ℤ → Option ℚ) (v : ArrayVar) (current : String)
    (fd : ℤ) (fill0 : Option ℚ) (r : FixOut)
    (h : fix_field_precision castFn truncFn v current fd fill0 = .ok (some r))
    (x : ℚ) (hx : x ∈ v.data) (_hm : effectiveFill v fill0 ≠ some x) :
    |x - castFn r.fmt.dtype x| < (10 : ℚ) ^ (-fd) :=
  runFamilies_ok_bound castFn truncFn v current fd fill0 DTYPE_REDUCTION_LISTS r h x hx

/-- Witness for C2: a float64 array reduced to float32 under the identity
cast; the element `3/2` is unmasked (there is no fill value) and unchanged. -/
theorem claim_C2_reduction_safe_witness :
    fix_field_precision castId truncNone wVar2 "float64" 2 none = .ok (some wRes2) ∧
    (3/2 : ℚ) ∈ wVar2.data ∧
    effectiveFill wVar2 none ≠ some (3/2 : ℚ) ∧
    |(3/2 : ℚ) - castId wRes2.fmt.dtype (3/2 : ℚ)| < (10 : ℚ) ^ (-(2 : ℤ)) :=
  ⟨by decide, by decide, by decide,
    claim_C2_reduction_safe castId truncNone wVar2 "float64" 2 none wRes2
      (by decide) (3/2 : ℚ) (by decide) (by decide)⟩

/-- C3: the returned fill value can equal a non-masked value of the narrowed
array.  The fill is `2`; the unmasked element `2 + 2 ^ (-30)` passes the
precision check at `fractional_digits = 5` and its float32 cast is exactly
`2` — equal to the returned fill — because the source checks candidate fill
values against the *original* `data_array` (lines 256, 259, 270), not the
narrowed array, so the collision goes undetected. -/
theorem claim_C3_fill_collides_with_narrowed :
    fixDtype (fix_field_precision castFloat32Grid truncNone wVar3 "float64" 5 (some 2))
        = some "float32" ∧
    fixFill (fix_field_precision castFloat32Grid truncNone wVar3 "float64" 5 (some 2))
        = some 2 ∧
    (2 + (2 : ℚ) ^ (-(30 : ℤ))) ∈ wVar3.data ∧
    (2 + (2 : ℚ) ^ (-(30 : ℤ))) ≠ 2 ∧
    castFloat32Grid "float32" (2 + (2 : ℚ) ^ (-(30 : ℤ))) = 2 :=
  ⟨by decide, by decide, by decide, by decide, by decide⟩

/-- C4: for float arrays the returned `fractional_digits` follows the
documented precedence — `decimal_places` capped at `sig_figs -
integer_digits`; else the declared specifier's fractional digits capped at
`sig_figs - integer_digits + 1`; else `sig_figs - integer_digits + 1` — with
`sig_figs` one more than the table entry for the dtype. -/
theorem claim_C4_fractional_precedence (v : ArrayVar) (dp : Option ℤ)
    (r : VarFormat) (c : Char) (sig0 : ℕ)
    (h : variable2aseg_gdf_format v dp = .ok r)
    (hc : alookup v.dtype ASEG_DTYPE_CODE_MAPPING = some c)
    (hf : c = 'F' ∨ c = 'D')
    (hs : alookup v.dtype SIG_FIGS = some sig0) :
    r.fractional_digits = fracPrecedenceSpec dp (declaredFracOf v.asegAttr)
      ((sig0 : ℤ) + 1) (ceilLog10Q (maxAbsOf v.data + 1)) := by
  obtain ⟨sig0', code, hsig, hcode, _, _, _, hbr⟩ := variable2aseg_ok_spec v dp r h
  rw [hs] at hsig
  rw [hc] at hcode
  have hss : sig0 = sig0' := Option.some.inj hsig
  have hcc : c = code := Option.some.inj hcode
  rcases hbr with ⟨hI, _⟩ | ⟨_, hres⟩
  · exfalso
    have hcI : c = 'I' := hcc.trans hI
    rcases hf with h1 | h1 <;> exact absurd (h1.symm.trans hcI) (by decide)
  · rw [hss]
    exact resolveFrac_eq_spec dp v.asegAttr ((sig0' : ℤ) + 1)
      (ceilLog10Q (maxAbsOf v.data + 1)) r.fractional_digits hres

/-- Witness for C4: a float64 array with no hints resolves fractional digits
to `sig_figs - integer_digits + 1 = 21 - 1 + 1`. -/
theorem claim_C4_fractional_precedence_witness :
    variable2aseg_gdf_format wVar4 none = .ok wRes4 ∧
    wRes4.fractional_digits = fracPrecedenceSpec none (declaredFracOf wVar4.asegAttr)
      ((20 : ℤ) + 1) (ceilLog10Q (maxAbsOf wVar4.data + 1)) :=
  ⟨by decide,
    claim_C4_fractional_precedence wVar4 none wRes4 'D' 20
      (by decide) (by decide) (Or.inr rfl) (by decide)⟩

/-- C5 counterexample: `I5X` is non-empty and outside the documented grammar
(trailing garbage), yet `decode_aseg_gdf_format` returns without error — the
regular expression is a prefix match, so the claimed "raises exactly when the
string is empty or does not match the grammar" fails. -/
theorem claim_C5_counterexample :
    specGrammarParse "I5X" = none ∧ "I5X" ≠ "" ∧
    okDecode (decode_aseg_gdf_format "I5X") = some ⟨PyVal.int 1, 'I', 5, 0⟩ :=
  ⟨by decide, by decide, by decide⟩

/-- C5 amended: `decode_aseg_gdf_format` raises exactly when the string is
empty or the source's regular expression finds no (prefix) match; every
string matching the documented grammar is accepted, with the type code
normalized to uppercase, the column count defaulting to `1` when the prefix
is absent, and fractional digits defaulting to `0` when the dot is absent. -/
theorem claim_C5_amended (s : String) :
    (isErr (decode_aseg_gdf_format s) = true ↔ (s = "" ∨ regexGroups s = none)) ∧
    (∀ g1 g2 g3 g4, specGrammarParse s = some (g1, g2, g3, g4) →
      decode_aseg_gdf_format s = .ok
        ⟨(match g1 with | some d => PyVal.str d | none => PyVal.int 1),
          g2.toUpper, digitsToNat g3,
          (match g4 with | some d => digitsToNat d | none => 0)⟩) := by
  constructor
  · exact decode_err_iff s
  · intro g1 g2 g3 g4 hg
    have hm := grammar_implies_regex s (g1, g2, g3, g4) hg
    have hs : s ≠ "" := by
      intro he
      subst he
      rw [show specGrammarParse "" = none from by decide] at hg
      exact Option.noConfusion hg
    rw [decode_aseg_gdf_format, if_neg hs, hm]

/-- Witness for C5 (amended): the grammar string `3f10.4` decodes with the
type code uppercased, and the empty string raises. -/
theorem claim_C5_amended_witness :
    decode_aseg_gdf_format "3f10.4" = .ok ⟨PyVal.str "3", 'F', 10, 4⟩ ∧
    isErr (decode_aseg_gdf_format "") = true :=
  ⟨((claim_C5_amended "3f10.4").2 (some "3") 'f' "10" (some "4") (by decide)).trans
      (by decide),
    (claim_C5_amended "").1.mpr (Or.inl rfl)⟩

/-- C6 counterexample: for an array whose maximum absolute value is `0` the
returned `integer_digits` is `ceil(log10 1) = 0`, not the claimed `1`. -/
theorem claim_C6_counterexample :
    maxAbsOf wVar6c.data = 0 ∧
    okIntegerDigits (variable2aseg_gdf_format wVar6c none) = some 0 ∧
    okIntegerDigits (variable2aseg_gdf_format wVar6c none) ≠ some 1 :=
  ⟨by decide, by decide, by decide⟩

/-- C6 amended: for every accepted array the returned `integer_digits` is
exactly `ceil(log10 (max_abs + 1))` — the least `d` with
`max_abs + 1 ≤ 10 ^ d` — which is `0` (not `1`) when `max_abs = 0`. -/
theorem claim_C6_integer_digits (v : ArrayVar) (dp : Option ℤ) (r : VarFormat)
    (h : variable2aseg_gdf_format v dp = .ok r) :
    isCeilLog10 (maxAbsOf v.data + 1) r.integer_digits := by
  obtain ⟨_, _, _, _, _, _, hint, _⟩ := variable2aseg_ok_spec v dp r h
  rw [hint]
  refine ceilLog10Q_spec _ ?_
  have := maxAbsOf_nonneg v.data
  linarith

/-- Witness for C6 (amended) at a one-digit integer array. -/
theorem claim_C6_integer_digits_witness :
    variable2aseg_gdf_format wVar6 none
      = .ok ⟨"I1", "int16", 1, 1, 0, "\x7b:1.0f\x7d"⟩ ∧
    isCeilLog10 (maxAbsOf wVar6.data + 1) 1 :=
  ⟨by decide,
    claim_C6_integer_digits wVar6 none ⟨"I1", "int16", 1, 1, 0, "\x7b:1.0f\x7d"⟩
      (by decide)⟩

/-- C7 counterexample: a float32 array with maximum absolute value `10 ^ 10`
is accepted and yields `fractional_digits = (7 + 1) - 11 + 1 = -2`, a
negative value — the claimed non-negativity fails for float kinds. -/
theorem claim_C7_counterexample :
    okFractionalDigits (variable2aseg_gdf_format wVar7c none) = some (-2) := by
  decide

/-- C7 amended: the returned `fractional_digits` equals zero whenever the
resolved ASEG dtype code is integer (`'I'`) or string (`'A'`, which is in
fact unreachable); for float kinds it can be negative. -/
theorem claim_C7_fractional_zero_for_integer (v : ArrayVar) (dp : Option ℤ)
    (r : VarFormat) (c : Char)
    (h : variable2aseg_gdf_format v dp = .ok r)
    (hc : alookup v.dtype ASEG_DTYPE_CODE_MAPPING = some c)
    (hic : c = 'I' ∨ c = 'A') :
    r.fractional_digits = 0 := by
  obtain ⟨sig0, code, hsig, hcode, _, _, _, hbr⟩ := variable2aseg_ok_spec v dp r h
  rw [hc] at hcode
  have hcc : c = code := Option.some.inj hcode
  rcases hbr with ⟨_, h0⟩ | ⟨hFD, _⟩
  · exact h0
  · exfalso
    rcases hic with hci | hci <;> rcases hFD with h1 | h1 <;>
      exact absurd ((hcc.symm.trans hci).symm.trans h1) (by decide)

/-- Witness for C7 (amended) at an int32 array. -/
theorem claim_C7_fractional_zero_witness :
    variable2aseg_gdf_format wVar7 none = .ok wRes7 ∧ wRes7.fractional_digits = 0 :=
  ⟨by decide,
    claim_C7_fractional_zero_for_integer wVar7 none wRes7 'I'
      (by decide) (by decide) (Or.inl rfl)⟩

/-- C8: `fix_field_precision` *can* raise.  The int64 array `[1, 2]` is
exactly representable in int8, so the first candidate is accepted, but
`ASEG_DTYPE_CODE_MAPPING` has no `int8` entry, so the re-run of
`variable2aseg_gdf_format` raises `AssertionError: Unhandled dtype int8`,
which the family-level `except ValueError` does not catch. -/
theorem claim_C8_fix_field_precision_raises :
    fix_field_precision castId truncNone wVar8 "int64" 0 none
      = .error (.assertionError "Unhandled dtype int8") := by decide

/-- C9: a text-kind array never reaches the string branch: `SIG_FIGS[dtype]`
(line 150) raises `KeyError` for any dtype outside the six numeric entries —
in particular for `str` — before the `'A'` branch (lines 176-184) can run,
so no `A`-format with the fixed width 40 is ever produced. -/
theorem claim_C9_text_array_raises_keyerror :
    variable2aseg_gdf_format ⟨[1], "str", [], none, none⟩ none
      = .error (.keyError "str") := by decide

/-- C10: a successful decode returns the column-count group *unconverted*:
the matched digit string (a Python `str`) when the prefix is present, and
the Python `int` `1` when it is absent — never an integer in the former
case. -/
theorem claim_C10_columns_unconverted (s : String) (g1 : Option String)
    (g2 : Char) (g3 : String) (g4 : Option String) (r : DecodeResult)
    (hm : regexGroups s = some (g1, g2, g3, g4))
    (h : decode_aseg_gdf_format s = .ok r) :
    (∀ d, g1 = some d → r.columns = PyVal.str d) ∧
    (g1 = none → r.columns = PyVal.int 1) ∧
    (∀ d n, g1 = some d → r.columns ≠ PyVal.int n) := by
  have hcols := decode_columns_of_groups s g1 g2 g3 g4 r hm h
  refine ⟨?_, ?_, ?_⟩
  · intro d hd
    subst hd
    exact hcols
  · intro hd
    subst hd
    exact hcols
  · intro d n hd
    subst hd
    rw [hcols]
    exact fun hcon => PyVal.noConfusion hcon

/-- Witness for C10 at `3F10.4` (prefix present: columns is the string
`"3"`). -/
theorem claim_C10_columns_unconverted_witness :
    regexGroups "3F10.4" = some (some "3", 'F', "10", some "4") ∧
    decode_aseg_gdf_format "3F10.4" = .ok ⟨PyVal.str "3", 'F', 10, 4⟩ ∧
    (⟨PyVal.str "3", 'F', 10, 4⟩ : DecodeResult).columns = PyVal.str "3" :=
  ⟨by decide, by decide,
    (claim_C10_columns_unconverted "3F10.4" (some "3") 'F' "10" (some "4")
      ⟨PyVal.str "3", 'F', 10, 4⟩ (by decide) (by decide)).1 "3" rfl⟩
